import Mathlib

/- Formal model of push.py, a one-shot CLI tool that parses a .env file and
   upserts each entry into AWS SSM Parameter Store or AWS Secrets Manager.
   Strings are modelled as Lean `String`; the Python string methods used by
   the script (strip, startswith, the in-test, split with limit 1, lower,
   slicing) are modelled explicitly below for ASCII input. -/

/-- Double quote character (codepoint 34). -/
def dquote : Char := Char.ofNat 34

/-- Single quote character (codepoint 39). -/
def squote : Char := Char.ofNat 39

/-- Backslash character (codepoint 92). -/
def backslashChar : Char := Char.ofNat 92

/-- Model of Python str.strip() with no argument: remove leading and trailing
whitespace (ASCII whitespace as used in .env files). -/
def pyStrip (s : String) : String :=
  String.mk (((s.data.dropWhile Char.isWhitespace).reverse.dropWhile Char.isWhitespace).reverse)

/-- Model of Python str.startswith(p). -/
def pyStartsWith (s p : String) : Bool := p.data.isPrefixOf s.data

/-- Model of the Python membership test for a single character, c in s. -/
def pyContainsChar (s : String) (c : Char) : Bool := s.data.contains c

/-- Model of Python s.split(sep, 1) for a one-character separator occurring in
s: the pair of the part before the first occurrence and the part after it. -/
def pySplit1 (s : String) (c : Char) : String × String :=
  (String.mk (s.data.takeWhile (fun a => a != c)),
   String.mk ((s.data.dropWhile (fun a => a != c)).drop 1))

/-- Model of the Python slice s[1:-1]. -/
def pySlice1m1 (s : String) : String := String.mk ((s.data.drop 1).dropLast)

/-- Model of Python str.lower() for ASCII strings. -/
def pyLower (s : String) : String := String.mk (s.data.map Char.toLower)

/-- Model of the Python substring test needle in hay on character lists. -/
def subAt : List Char → List Char → Bool
  | needle, [] => needle.isEmpty
  | needle, c :: hs => needle.isPrefixOf (c :: hs) || subAt needle hs

/-- Model of a Python dict with string keys, as an association list with
unique keys in insertion order: assignment d[k] = v replaces the value in
place when k is present and appends (k, v) at the end otherwise. -/
def dictInsert (k v : String) : List (String × String) → List (String × String)
  | [] => [(k, v)]
  | (k', v') :: m => if k' = k then (k', v) :: m else (k', v') :: dictInsert k v m

/-- Lookup in the association-list dict model. -/
def dictLookup (k : String) : List (String × String) → Option String
  | [] => none
  | (k', v') :: m => if k = k' then some v' else dictLookup k m

/-- Repeated dict assignment, in order, of a list of (key, value) pairs. -/
def upsertAll (m : List (String × String)) (es : List (String × String)) :
    List (String × String) :=
  es.foldl (fun acc kv => dictInsert kv.1 kv.2 acc) m

/-- Output of the .env parser: the dict of variables and the list of
warnings, each warning carrying the 1-based line number and the stripped
line that triggered it. -/
structure ParseOut where
  env_vars : List (String × String)
  warnings : List (Nat × String)
deriving DecidableEq

/-- Quote stripping from push.py lines 53-57: if the value starts and ends
with a double quote, or starts and ends with a single quote, take the slice
value[1:-1]. -/
def unquoteCode (v : String) : String :=
  if v.data.head? == some dquote && v.data.getLast? == some dquote then pySlice1m1 v
  else if v.data.head? == some squote && v.data.getLast? == some squote then pySlice1m1 v
  else v

/-- Processing of one line of the .env file, push.py lines 42-61: strip the
line; skip it when empty or starting with the comment marker; when it
contains an equals sign, split on the first one, strip key and value, strip
quotes from the value and assign into the dict; otherwise record a warning
with the line number and the stripped line. -/
def parseStep (acc : ParseOut) (line_num : Nat) (raw : String) : ParseOut :=
  let line := pyStrip raw
  if line == "" || pyStartsWith line "#" then acc
  else if pyContainsChar line '=' then
    let kv := pySplit1 line '='
    ParseOut.mk (dictInsert (pyStrip kv.1) (unquoteCode (pyStrip kv.2)) acc.env_vars)
      acc.warnings
  else ParseOut.mk acc.env_vars (acc.warnings ++ [(line_num, line)])

/-- The enumerate(f, 1) loop of push.py lines 41-61. -/
def parseLines (line_num : Nat) (acc : ParseOut) : List String → ParseOut
  | [] => acc
  | l :: ls => parseLines (line_num + 1) (parseStep acc line_num l) ls

/-- Model of parse_env_file (push.py lines 33-63) applied to the lines of an
existing file. -/
def parse_env_file (lines : List String) : ParseOut :=
  parseLines 1 (ParseOut.mk [] []) lines

/-- The (key, value) pair contributed by one line, when the line is neither
skipped nor invalid; mirrors the entry branch of parseStep. -/
def lineEntry? (raw : String) : Option (String × String) :=
  let line := pyStrip raw
  if line == "" || pyStartsWith line "#" then none
  else if pyContainsChar line '=' then
    let kv := pySplit1 line '='
    some (pyStrip kv.1, unquoteCode (pyStrip kv.2))
  else none

/-- Whether a line is reported as invalid by the parser: after stripping it
is neither empty nor a comment, and contains no equals sign. -/
def isWarnLine (raw : String) : Bool :=
  let line := pyStrip raw
  !(line == "" || pyStartsWith line "#") && !(pyContainsChar line '=')

/-- The warnings the parser is expected to emit: one per invalid line, in
file order, carrying the 1-based line number and the stripped line. -/
def warnFrom (n : Nat) : List String → List (Nat × String)
  | [] => []
  | l :: ls => if isWarnLine l then (n, pyStrip l) :: warnFrom (n + 1) ls
               else warnFrom (n + 1) ls

/-- The (key, value) entries contributed by the lines of a file, in order. -/
def entriesOf (lines : List String) : List (String × String) :=
  lines.filterMap lineEntry?

/-- Value of the last occurrence of a key among a list of entries. -/
def lastVal (k : String) : List (String × String) → Option String
  | [] => none
  | (k', v) :: es =>
    match lastVal k es with
    | some w => some w
    | none => if k = k' then some v else none

/-- First-occurrence deduplication of a list of keys, skipping keys already
seen. -/
def firstDedupAux (seen : List String) : List String → List String
  | [] => []
  | a :: l => if a ∈ seen then firstDedupAux seen l
              else a :: firstDedupAux (a :: seen) l

/-- Sensitivity test of push.py lines 120-127: the key is sensitive when its
lowercased form contains one of the four markers as a substring. -/
def isSensitiveKey (key : String) : Bool :=
  ["password", "secret", "key", "token"].any (fun s => subAt s.data (pyLower key).data)

/-- Parameter type chosen by push_to_ssm: SecureString for sensitive keys,
String otherwise (push.py lines 120-127). -/
def paramTypeOf (key : String) : String :=
  if isSensitiveKey key then "SecureString" else "String"

/-- Arguments of one ssm.put_parameter call (push.py lines 139-153): name,
value, type, the Overwrite flag (absent means false), and the optional Tags
argument. -/
structure SsmCall where
  name : String
  value : String
  ptype : String
  overwrite : Bool
  tags : Option (List (String × String))
deriving DecidableEq

/-- One Secrets Manager API call issued per item (push.py lines 247-258):
either update_secret with a secret id and secret string, or create_secret
with a name, secret string and tags. -/
inductive SmCall
  | update (secretId secretString : String)
  | create (secretName secretString : String) (tags : List (String × String))
deriving DecidableEq

/-- The fixed tag list attached at creation time in both variants
(push.py lines 130-134 and 238-242). -/
def pushTags (profile tag : String) : List (String × String) :=
  [("Source", ".env"), ("Profile", profile), ("Tag", tag)]

/-- Parameter name for the SSM variant (push.py line 104). -/
def ssmName (tag key : String) : String := "/" ++ tag ++ "/" ++ key

/-- Secret name for the Secrets Manager variant (push.py line 221). -/
def smName (tag key : String) : String := tag ++ "/" ++ key

/-- The put_parameter call issued by push_to_ssm for one item, given the
outcome of the existence check (push.py lines 120-153). -/
def ssmStep (found : Bool) (profile tag key value : String) : SsmCall :=
  if found then
    SsmCall.mk (ssmName tag key) value (paramTypeOf key) true none
  else
    SsmCall.mk (ssmName tag key) value (paramTypeOf key) false (some (pushTags profile tag))

/-- The secret string built by push_to_secrets_manager (push.py line 236):
the key and value interpolated into a JSON-object template with no
escaping. -/
def smSecretString (key value : String) : String :=
  "\x7b\"" ++ key ++ "\": \"" ++ value ++ "\"\x7d"

/-- The Secrets Manager call issued for one item, given the outcome of the
existence check (push.py lines 235-258). -/
def smStep (found : Bool) (profile tag key value : String) : SmCall :=
  if found then
    SmCall.update (smName tag key) (smSecretString key value)
  else
    SmCall.create (smName tag key) (smSecretString key value) (pushTags profile tag)

/-- Read-by-id against the remote store: some value when the item exists,
none modelling the ParameterNotFound / ResourceNotFoundException outcome of
get_parameter / describe_secret (push.py lines 109-118 and 226-233). -/
def readById (store : List (String × String)) (id : String) : Option String :=
  dictLookup id store

/-- Per-item dispatch of push_to_ssm: existence check by read-by-id, then
the corresponding put_parameter call. -/
def pushOneSsm (store : List (String × String)) (profile tag key value : String) : SsmCall :=
  ssmStep (readById store (ssmName tag key)).isSome profile tag key value

/-- Per-item dispatch of push_to_secrets_manager: existence check by
read-by-id, then the corresponding update_secret or create_secret call. -/
def pushOneSm (store : List (String × String)) (profile tag key value : String) : SmCall :=
  smStep (readById store (smName tag key)).isSome profile tag key value

/-- Per-item outcome printed by the loops: a check mark line for a pushed
item or a cross line for a failed one (push.py lines 156-159, 261-264). -/
inductive Report
  | pushed (nm : String)
  | failed (nm : String)
deriving DecidableEq

/-- Network interaction performed by the script: session creation, a
read-by-id existence check, or a write to one of the two stores. -/
inductive NetEvent
  | sessionCreate (profile : String)
  | readItem (id : String)
  | writeSsm (c : SsmCall)
  | writeSm (c : SmCall)
deriving DecidableEq

/-- The per-item loop of push_to_ssm (push.py lines 103-159): for each
(key, value) in order, an existence check, a put_parameter call, and a
report; an exception on the put (modelled by the fails oracle on the
parameter name) is caught, reported as a failure, and the loop continues. -/
def ssmLoop (store : List (String × String)) (fails : String → Bool)
    (profile tag : String) : List (String × String) → List NetEvent × List Report
  | [] => ([], [])
  | (key, value) :: rest =>
    let nm := ssmName tag key
    let c := pushOneSsm store profile tag key value
    let r := if fails nm then Report.failed nm else Report.pushed nm
    let t := ssmLoop store fails profile tag rest
    (NetEvent.readItem nm :: NetEvent.writeSsm c :: t.1, r :: t.2)

/-- The per-item loop of push_to_secrets_manager (push.py lines 220-264). -/
def smLoop (store : List (String × String)) (fails : String → Bool)
    (profile tag : String) : List (String × String) → List NetEvent × List Report
  | [] => ([], [])
  | (key, value) :: rest =>
    let nm := smName tag key
    let c := pushOneSm store profile tag key value
    let r := if fails nm then Report.failed nm else Report.pushed nm
    let t := smLoop store fails profile tag rest
    (NetEvent.readItem nm :: NetEvent.writeSm c :: t.1, r :: t.2)

/-- Model of push_to_ssm (push.py lines 66-178): session creation first; a
connection failure raises out of the outer try and the function exits the
process with code 1; otherwise the loop runs over all items and the
function returns normally (exit code 0 at process level). -/
def push_to_ssm (connOk : Bool) (store : List (String × String))
    (fails : String → Bool) (profile tag : String)
    (env_vars : List (String × String)) : Nat × List NetEvent × List Report :=
  if connOk then
    let t := ssmLoop store fails profile tag env_vars
    (0, NetEvent.sessionCreate profile :: t.1, t.2)
  else (1, [NetEvent.sessionCreate profile], [])

/-- Model of push_to_secrets_manager (push.py lines 181-283). -/
def push_to_secrets_manager (connOk : Bool) (store : List (String × String))
    (fails : String → Bool) (profile tag : String)
    (env_vars : List (String × String)) : Nat × List NetEvent × List Report :=
  if connOk then
    let t := smLoop store fails profile tag env_vars
    (0, NetEvent.sessionCreate profile :: t.1, t.2)
  else (1, [NetEvent.sessionCreate profile], [])

/-- The two storage targets selectable on the command line. -/
inductive Target
  | ssm
  | secretsmanager
deriving DecidableEq

/-- The namespaced item identifier used by the selected variant. -/
def itemName : Target → String → String → String
  | Target.ssm, tag, key => ssmName tag key
  | Target.secretsmanager, tag, key => smName tag key

/-- Report expected for one item given the failure oracle. -/
def expectedReport (fails : String → Bool) (nm : String) : Report :=
  if fails nm then Report.failed nm else Report.pushed nm

/-- Model of main (push.py lines 286-344): a missing env file (file = none)
makes parse_env_file exit with code 1; an empty parsed mapping exits with
code 1; otherwise the selected dispatcher runs.  The result is the process
exit code, the network events in order, and the per-item reports. -/
def mainRun (file : Option (List String)) (target : Target) (connOk : Bool)
    (store : List (String × String)) (fails : String → Bool)
    (profile tag : String) : Nat × List NetEvent × List Report :=
  match file with
  | none => (1, [], [])
  | some lines =>
    let env_vars := (parse_env_file lines).env_vars
    if env_vars.isEmpty then (1, [], [])
    else
      match target with
      | Target.ssm => push_to_ssm connOk store fails profile tag env_vars
      | Target.secretsmanager =>
        push_to_secrets_manager connOk store fails profile tag env_vars

/-- Classification of one line, used by the spec-side parser descriptions. -/
inductive LineClass
  | blank
  | comment
  | noEq
  | pair (key value : String)

/-- Quote stripping as the claim words it: strip a single matching pair of
surrounding quote characters (double or single) from the value.  A pair
requires two character positions, so the value must have length at least
two and start and end with the same quote character. -/
def unquoteSpecPair (v : String) : String :=
  if decide (2 ≤ v.data.length) && v.data.head? == some dquote
      && v.data.getLast? == some dquote then pySlice1m1 v
  else if decide (2 ≤ v.data.length) && v.data.head? == some squote
      && v.data.getLast? == some squote then pySlice1m1 v
  else v

/-- Quote stripping as the amended claim words it: when the value starts and
ends with the same quote character (double or single), remove its first and
last character; a value that is a single quote character becomes empty. -/
def unquoteSpecAmended (v : String) : String :=
  match v.data.head?, v.data.getLast? with
  | some c, some d =>
    if (c = dquote ∨ c = squote) ∧ d = c then pySlice1m1 v else v
  | _, _ => v

/-- Line classification written from the claim wording: skip blank lines and
lines starting with the comment marker, split remaining lines containing an
equals sign on the first one, trim surrounding whitespace from key and
value; a remaining line with no equals sign is invalid. -/
def specClassifyWith (unquote : String → String) (raw : String) : LineClass :=
  let line := pyStrip raw
  if line == "" then LineClass.blank
  else if pyStartsWith line "#" then LineClass.comment
  else if pyContainsChar line '=' then
    LineClass.pair (pyStrip (pySplit1 line '=').1)
      (unquote (pyStrip (pySplit1 line '=').2))
  else LineClass.noEq

/-- Entry produced by a line under a spec-side classification. -/
def specEntry? (unquote : String → String) (raw : String) : Option (String × String) :=
  match specClassifyWith unquote raw with
  | LineClass.pair k v => some (k, v)
  | _ => none

/-- Parser described by claim C1 as stated: the mapping built from the
classified lines, with values unquoted by stripping a single matching
surrounding pair. -/
def specParseClaim (lines : List String) : List (String × String) :=
  upsertAll [] (lines.filterMap (specEntry? unquoteSpecPair))

/-- Parser described by the amended claim C1: identical, except that the
value is stripped of its first and last character whenever it starts and
ends with the same quote character. -/
def specParseAmended (lines : List String) : List (String × String) :=
  upsertAll [] (lines.filterMap (specEntry? unquoteSpecAmended))

/-- Sensitivity as the spec words it: the key contains password, secret,
key, or token as a case-insensitive substring. -/
def SensitiveMarker (key : String) : Prop :=
  subAt ("password").data (pyLower key).data = true
  ∨ subAt ("secret").data (pyLower key).data = true
  ∨ subAt ("key").data (pyLower key).data = true
  ∨ subAt ("token").data (pyLower key).data = true

/-- Kind of a store write: a creation or an update of an existing item. -/
inductive CallKind
  | createK
  | updateK
deriving DecidableEq

/-- Kind of an SSM put_parameter call: a call carrying Tags is the creation
path, a call without Tags is the update path (push.py lines 136-153). -/
def SsmCall.kind (c : SsmCall) : CallKind :=
  if c.tags.isSome then CallKind.createK else CallKind.updateK

/-- Kind of a Secrets Manager call. -/
def SmCall.kind : SmCall → CallKind
  | SmCall.update _ _ => CallKind.updateK
  | SmCall.create _ _ _ => CallKind.createK

/-- Tags carried by a Secrets Manager call: only create_secret carries
tags. -/
def SmCall.tagsOf : SmCall → Option (List (String × String))
  | SmCall.update _ _ => none
  | SmCall.create _ _ ts => some ts

/-- Identifier targeted by a Secrets Manager call. -/
def SmCall.nameOf : SmCall → String
  | SmCall.update n _ => n
  | SmCall.create n _ _ => n

/-- Secret string stored by a Secrets Manager call. -/
def SmCall.payload : SmCall → String
  | SmCall.update _ s => s
  | SmCall.create _ s _ => s

/-- Shape of a Secrets Manager call: every field except the item name and
the stored payload, namely whether it is an update and which tags it
carries.  A sensitivity marking, if the variant emitted one, would have to
live here. -/
def SmCall.shape : SmCall → Bool × List (String × String)
  | SmCall.update _ _ => (true, [])
  | SmCall.create _ _ ts => (false, ts)

/-- Left brace character (codepoint 123). -/
def lbraceChar : Char := Char.ofNat 123

/-- Right brace character (codepoint 125). -/
def rbraceChar : Char := Char.ofNat 125

/-- Left bracket character (codepoint 91). -/
def lbrackChar : Char := Char.ofNat 91

/-- Right bracket character (codepoint 93). -/
def rbrackChar : Char := Char.ofNat 93

/-- Whitespace accepted between JSON tokens (RFC 8259). -/
def jWs (c : Char) : Bool := c == ' ' || c == '\t' || c == '\n' || c == '\r'

/-- Skip JSON whitespace. -/
def skipWsJ (cs : List Char) : List Char := cs.dropWhile jWs

/-- Hexadecimal digit test for JSON unicode escapes. -/
def isHexDigitChar (c : Char) : Bool :=
  c.isDigit || (decide (97 ≤ c.toNat) && decide (c.toNat ≤ 102))
    || (decide (65 ≤ c.toNat) && decide (c.toNat ≤ 70))

/-- Scan the body of a JSON string literal, after its opening quote, up to
and including its closing quote; returns the remaining input, or none when
the literal is malformed (RFC 8259 section 7). -/
def jstr : List Char → Option (List Char)
  | [] => none
  | c :: cs =>
    if c == dquote then some cs
    else if c == backslashChar then
      match cs with
      | [] => none
      | e :: cs2 =>
        if e == dquote || e == backslashChar || e == '/' || e == 'b' || e == 'f'
            || e == 'n' || e == 'r' || e == 't' then jstr cs2
        else if e == 'u' then
          match cs2 with
          | h1 :: h2 :: h3 :: h4 :: cs3 =>
            if isHexDigitChar h1 && isHexDigitChar h2 && isHexDigitChar h3
                && isHexDigitChar h4 then jstr cs3
            else none
          | _ => none
        else none
    else if decide (32 ≤ c.toNat) then jstr cs
    else none

/-- Scan one or more decimal digits. -/
def jdigits1 : List Char → Option (List Char)
  | c :: rest => if c.isDigit then some (rest.dropWhile Char.isDigit) else none
  | [] => none

/-- Scan the integer part of a JSON number, after an optional sign. -/
def jint : List Char → Option (List Char)
  | c :: rest =>
    if c == '0' then some rest
    else if c.isDigit then some (rest.dropWhile Char.isDigit)
    else none
  | [] => none

/-- Scan the optional fraction part of a JSON number. -/
def jfrac : List Char → Option (List Char)
  | c :: rest => if c == '.' then jdigits1 rest else some (c :: rest)
  | [] => some []

/-- Scan the optional exponent part of a JSON number. -/
def jexpPart : List Char → Option (List Char)
  | c :: rest =>
    if c == 'e' || c == 'E' then
      match rest with
      | s :: rest2 => if s == '+' || s == '-' then jdigits1 rest2 else jdigits1 rest
      | [] => none
    else some (c :: rest)
  | [] => some []

/-- Scan a JSON number (RFC 8259 section 6). -/
def jnum (cs : List Char) : Option (List Char) :=
  let cs1 := match cs with
    | c :: rest => if c == '-' then rest else c :: rest
    | [] => []
  match jint cs1 with
  | none => none
  | some r1 =>
    match jfrac r1 with
    | none => none
    | some r2 => jexpPart r2

/-- Scan a fixed literal tail such as rue, alse, ull. -/
def jlit (lit cs : List Char) : Option (List Char) :=
  if lit.isPrefixOf cs then some (cs.drop lit.length) else none

/-- Parsing mode: a value, the members of an object, or the elements of an
array. -/
inductive JMode
  | val
  | mems
  | elems

/-- Fueled recursive-descent recogniser for JSON values (RFC 8259); the fuel
only bounds nesting of recursive calls and is chosen large enough from the
input length. -/
def jstep : Nat → JMode → List Char → Option (List Char)
  | 0, _, _ => none
  | fuel + 1, JMode.val, cs =>
    match skipWsJ cs with
    | [] => none
    | c :: rest =>
      if c == dquote then jstr rest
      else if c == lbraceChar then
        match skipWsJ rest with
        | d :: rest2 =>
          if d == rbraceChar then some rest2
          else jstep fuel JMode.mems (d :: rest2)
        | [] => none
      else if c == lbrackChar then
        match skipWsJ rest with
        | d :: rest2 =>
          if d == rbrackChar then some rest2
          else jstep fuel JMode.elems (d :: rest2)
        | [] => none
      else if c == 't' then jlit ('r' :: 'u' :: 'e' :: []) rest
      else if c == 'f' then jlit ('a' :: 'l' :: 's' :: 'e' :: []) rest
      else if c == 'n' then jlit ('u' :: 'l' :: 'l' :: []) rest
      else if c == '-' || c.isDigit then jnum (c :: rest)
      else none
  | fuel + 1, JMode.mems, cs =>
    match skipWsJ cs with
    | c :: rest =>
      if c == dquote then
        match jstr rest with
        | none => none
        | some r1 =>
          match skipWsJ r1 with
          | d :: r2 =>
            if d == ':' then
              match jstep fuel JMode.val r2 with
              | none => none
              | some r3 =>
                match skipWsJ r3 with
                | e :: r4 =>
                  if e == ',' then jstep fuel JMode.mems r4
                  else if e == rbraceChar then some r4
                  else none
                | [] => none
            else none
          | [] => none
      else none
    | [] => none
  | fuel + 1, JMode.elems, cs =>
    match jstep fuel JMode.val cs with
    | none => none
    | some r1 =>
      match skipWsJ r1 with
      | e :: r2 =>
        if e == ',' then jstep fuel JMode.elems r2
        else if e == rbrackChar then some r2
        else none
      | [] => none

/-- Validity of a string as a JSON text consisting of a single JSON value
surrounded by optional whitespace. -/
def isValidJson (s : String) : Bool :=
  match jstep (2 * s.data.length + 8) JMode.val s.data with
  | some rest => (skipWsJ rest).isEmpty
  | none => false

theorem parseStep_env (acc : ParseOut) (n : Nat) (raw : String) :
    (parseStep acc n raw).env_vars =
      match lineEntry? raw with
      | some kv => dictInsert kv.1 kv.2 acc.env_vars
      | none => acc.env_vars := by
  simp only [parseStep, lineEntry?]
  split
  · rfl
  · split <;> rfl

theorem parseStep_warnings (acc : ParseOut) (n : Nat) (raw : String) :
    (parseStep acc n raw).warnings =
      acc.warnings ++ (if isWarnLine raw then [(n, pyStrip raw)] else []) := by
  simp only [parseStep, isWarnLine]
  split
  · rename_i h
    simp [h]
  · rename_i h
    split
    · rename_i h2
      simp [h, h2]
    · rename_i h2
      simp [h, h2]

theorem parseLines_env (ls : List String) : ∀ (n : Nat) (acc : ParseOut),
    (parseLines n acc ls).env_vars = upsertAll acc.env_vars (ls.filterMap lineEntry?) := by
  induction ls with
  | nil => intro n acc; rfl
  | cons l ls ih =>
    intro n acc
    show (parseLines (n + 1) (parseStep acc n l) ls).env_vars = _
    rw [ih, List.filterMap_cons]
    cases h : lineEntry? l with
    | none => rw [parseStep_env]; simp [h]
    | some kv => rw [parseStep_env]; simp [h, upsertAll]

theorem parseLines_warnings (ls : List String) : ∀ (n : Nat) (acc : ParseOut),
    (parseLines n acc ls).warnings = acc.warnings ++ warnFrom n ls := by
  induction ls with
  | nil => intro n acc; simp [parseLines, warnFrom]
  | cons l ls ih =>
    intro n acc
    show (parseLines (n + 1) (parseStep acc n l) ls).warnings = _
    rw [ih, parseStep_warnings]
    by_cases h : isWarnLine l <;> simp [warnFrom, h]

theorem isWarnLine_lineEntry (raw : String) (h : isWarnLine raw = true) :
    lineEntry? raw = none := by
  simp only [isWarnLine, Bool.and_eq_true, Bool.not_eq_true'] at h
  simp [lineEntry?, h.1, h.2]

theorem filterMap_filter_of_none {α β : Type} (f : α → Option β) (p : α → Bool)
    (hf : ∀ a, p a = false → f a = none) :
    ∀ l : List α, (l.filter p).filterMap f = l.filterMap f := by
  intro l
  induction l with
  | nil => rfl
  | cons a l ih =>
    by_cases h : p a
    · simp [List.filter_cons, h, List.filterMap_cons, ih]
    · have := hf a (by simpa using h)
      simp [List.filter_cons, h, List.filterMap_cons, this, ih]

theorem dictLookup_dictInsert (k' k v : String) (m : List (String × String)) :
    dictLookup k' (dictInsert k v m) = if k' = k then some v else dictLookup k' m := by
  induction m with
  | nil => simp [dictInsert, dictLookup]
  | cons p m ih =>
    obtain ⟨a, b⟩ := p
    by_cases hak : a = k
    · subst hak
      by_cases h' : k' = a <;> simp [dictInsert, dictLookup, h']
    · by_cases h' : k' = a
      · subst h'
        simp [dictInsert, dictLookup, hak, Ne.symm hak]
      · simp [dictInsert, dictLookup, hak, h', ih]

theorem keys_dictInsert (k v : String) (m : List (String × String)) :
    (dictInsert k v m).map Prod.fst =
      if k ∈ m.map Prod.fst then m.map Prod.fst else m.map Prod.fst ++ [k] := by
  induction m with
  | nil => simp [dictInsert]
  | cons p m ih =>
    obtain ⟨a, b⟩ := p
    by_cases hak : a = k
    · subst hak
      simp [dictInsert]
    · have : ¬ k = a := fun h => hak h.symm
      simp [dictInsert, hak, ih, this]
      by_cases hm : k ∈ m.map Prod.fst <;> simp [hm, this]

theorem dictLookup_upsertAll (k : String) (es : List (String × String)) :
    ∀ m, dictLookup k (upsertAll m es) =
      match lastVal k es with
      | some w => some w
      | none => dictLookup k m := by
  induction es with
  | nil => intro m; simp [upsertAll, lastVal]
  | cons kv es ih =>
    intro m
    obtain ⟨k', v⟩ := kv
    show dictLookup k (upsertAll (dictInsert k' v m) es) = _
    rw [ih]
    cases h : lastVal k es with
    | some w => simp [lastVal, h]
    | none =>
      simp only [lastVal, h, dictLookup_dictInsert]
      by_cases hk : k = k' <;> simp [hk]

theorem firstDedupAux_congr (l : List String) :
    ∀ s₁ s₂, (∀ x, x ∈ s₁ ↔ x ∈ s₂) → firstDedupAux s₁ l = firstDedupAux s₂ l := by
  induction l with
  | nil => intros; rfl
  | cons a l ih =>
    intro s₁ s₂ h
    by_cases ha : a ∈ s₁
    · rw [firstDedupAux, firstDedupAux, if_pos ha, if_pos ((h a).1 ha)]
      exact ih s₁ s₂ h
    · rw [firstDedupAux, firstDedupAux, if_neg ha, if_neg (fun hb => ha ((h a).2 hb))]
      refine congrArg _ (ih _ _ ?_)
      intro x
      simp only [List.mem_cons]
      exact or_congr Iff.rfl (h x)

theorem keys_upsertAll (es : List (String × String)) :
    ∀ m, (upsertAll m es).map Prod.fst =
      m.map Prod.fst ++ firstDedupAux (m.map Prod.fst) (es.map Prod.fst) := by
  induction es with
  | nil => intro m; simp [upsertAll, firstDedupAux]
  | cons kv es ih =>
    intro m
    obtain ⟨k, v⟩ := kv
    show (upsertAll (dictInsert k v m) es).map Prod.fst = _
    rw [ih, keys_dictInsert]
    by_cases hk : k ∈ m.map Prod.fst
    · simp only [if_pos hk, List.map_cons, firstDedupAux, if_pos hk]
    · simp only [if_neg hk, List.map_cons, firstDedupAux, if_neg hk]
      rw [firstDedupAux_congr (es.map Prod.fst) (m.map Prod.fst ++ [k]) (k :: m.map Prod.fst)
        (fun x => by simp [or_comm])]
      simp

theorem mem_firstDedupAux (x : String) (l : List String) :
    ∀ seen, x ∈ firstDedupAux seen l → x ∉ seen := by
  induction l with
  | nil => intro seen h; simp [firstDedupAux] at h
  | cons a l ih =>
    intro seen h
    by_cases ha : a ∈ seen
    · rw [firstDedupAux, if_pos ha] at h
      exact ih seen h
    · rw [firstDedupAux, if_neg ha] at h
      rcases List.mem_cons.mp h with h | h
      · subst h; exact ha
      · intro hx
        exact ih (a :: seen) h (List.mem_cons_of_mem a hx)

theorem count_firstDedupAux (k : String) (l : List String) :
    ∀ seen, k ∈ l → k ∉ seen → (firstDedupAux seen l).count k = 1 := by
  induction l with
  | nil => intro seen h; simp at h
  | cons a l ih =>
    intro seen hk hseen
    by_cases ha : a ∈ seen
    · rw [firstDedupAux, if_pos ha]
      have hne : k ≠ a := fun h => hseen (h ▸ ha)
      exact ih seen ((List.mem_cons.mp hk).resolve_left hne) hseen
    · rw [firstDedupAux, if_neg ha]
      by_cases hka : k = a
      · subst hka
        have hnot : k ∉ firstDedupAux (k :: seen) l := fun h =>
          mem_firstDedupAux k l (k :: seen) h (List.mem_cons_self k seen)
        rw [List.count_cons_self, List.count_eq_zero_of_not_mem hnot]
      · have hkl : k ∈ l := (List.mem_cons.mp hk).resolve_left hka
        have hks : k ∉ a :: seen := by
          intro h
          rcases List.mem_cons.mp h with h | h
          · exact hka h
          · exact hseen h
        rw [List.count_cons_of_ne hka, ih (a :: seen) hkl hks]

theorem ssmLoop_reports (store : List (String × String)) (fails : String → Bool)
    (profile tag : String) (items : List (String × String)) :
    (ssmLoop store fails profile tag items).2 =
      items.map (fun kv => expectedReport fails (ssmName tag kv.1)) := by
  induction items with
  | nil => rfl
  | cons kv items ih =>
    obtain ⟨k, v⟩ := kv
    simp [ssmLoop, ih, expectedReport]

theorem smLoop_reports (store : List (String × String)) (fails : String → Bool)
    (profile tag : String) (items : List (String × String)) :
    (smLoop store fails profile tag items).2 =
      items.map (fun kv => expectedReport fails (smName tag kv.1)) := by
  induction items with
  | nil => rfl
  | cons kv items ih =>
    obtain ⟨k, v⟩ := kv
    simp [smLoop, ih, expectedReport]

theorem unquoteCode_eq_amended (v : String) : unquoteCode v = unquoteSpecAmended v := by
  have hne : dquote ≠ squote := by decide
  have hne' : squote ≠ dquote := by decide
  unfold unquoteCode unquoteSpecAmended
  cases hh : v.data.head? with
  | none => simp [hh]
  | some c =>
    cases hl : v.data.getLast? with
    | none => simp [hh, hl]
    | some d =>
      simp only [hh, hl]
      by_cases h1 : c = dquote <;> by_cases h2 : d = dquote <;>
        by_cases h3 : c = squote <;> by_cases h4 : d = squote <;>
          simp_all

theorem lineEntry?_eq_specAmended (raw : String) :
    lineEntry? raw = specEntry? unquoteSpecAmended raw := by
  by_cases hb : pyStrip raw == ""
  · simp [lineEntry?, specEntry?, specClassifyWith, hb]
  · by_cases hc : pyStartsWith (pyStrip raw) "#"
    · simp [lineEntry?, specEntry?, specClassifyWith, hb, hc]
    · by_cases he : pyContainsChar (pyStrip raw) '='
      · simp [lineEntry?, specEntry?, specClassifyWith, hb, hc, he,
          unquoteCode_eq_amended]
      · simp [lineEntry?, specEntry?, specClassifyWith, hb, hc, he]

/-- C1 is refuted as stated: on the file line K=(one double quote) the
parser stores the empty string as the value, because the slice value[1:-1]
is taken whenever the value starts and ends with a quote character, even
when it is a single character and no surrounding pair exists; stripping
only a matching pair of surrounding quotes would keep the single quote
character as the value. -/
theorem C1_counterexample :
    (parse_env_file ["K=\""]).env_vars = [("K", "")]
  ∧ specParseClaim ["K=\""] = [("K", "\"")]
  ∧ (parse_env_file ["K=\""]).env_vars ≠ specParseClaim ["K=\""] := by decide

/-- C1 (amended): for every input file the parser skips blank lines and
lines starting with the comment marker, splits each remaining line
containing an equals sign on the first one, trims surrounding whitespace
from key and value, and removes the first and last character of the value
whenever the value starts and ends with the same quote character (double or
single) — a value that is a single quote character becomes empty — yielding
a mapping whose values are exactly those unquoted values. -/
theorem C1_amended_parse (lines : List String) :
    (parse_env_file lines).env_vars = specParseAmended lines := by
  show (parseLines 1 (ParseOut.mk [] []) lines).env_vars = _
  rw [parseLines_env]
  unfold specParseAmended
  rw [funext lineEntry?_eq_specAmended]

/-- C2: for every (key, value) pair, each dispatcher first performs a
read-by-id existence check (none modelling the not-found response); when
the item does not exist it issues a create carrying the value and the fixed
three-element tag set of source, profile and tag, and when it exists it
issues an update of the value with no tags.  In the Secrets Manager
variant the value travels inside the interpolated secret string. -/
theorem C2_upsert_dispatch (store : List (String × String))
    (profile tag key value : String) :
    (readById store (ssmName tag key) = none →
      pushOneSsm store profile tag key value =
        SsmCall.mk (ssmName tag key) value (paramTypeOf key) false
          (some [("Source", ".env"), ("Profile", profile), ("Tag", tag)]))
  ∧ (∀ w, readById store (ssmName tag key) = some w →
      pushOneSsm store profile tag key value =
        SsmCall.mk (ssmName tag key) value (paramTypeOf key) true none)
  ∧ (readById store (smName tag key) = none →
      pushOneSm store profile tag key value =
        SmCall.create (smName tag key) (smSecretString key value)
          [("Source", ".env"), ("Profile", profile), ("Tag", tag)])
  ∧ (∀ w, readById store (smName tag key) = some w →
      pushOneSm store profile tag key value =
        SmCall.update (smName tag key) (smSecretString key value)) := by
  refine ⟨?_, ?_, ?_, ?_⟩
  · intro h; simp [pushOneSsm, h, ssmStep, pushTags]
  · intro w h; simp [pushOneSsm, h, ssmStep]
  · intro h; simp [pushOneSm, h, smStep, pushTags]
  · intro w h; simp [pushOneSm, h, smStep]

/-- C2 witness: with the item /t/K present in the store, the SSM dispatcher
issues an update with Overwrite and no tags; with t/K absent, the Secrets
Manager dispatcher issues a create with the three tags. -/
theorem C2_upsert_dispatch_witness :
    pushOneSsm [("/t/K", "old")] "p" "t" "K" "v" =
      SsmCall.mk "/t/K" "v" "String" true none
  ∧ pushOneSm [("/t/K", "old")] "p" "t" "K" "v" =
      SmCall.create "t/K" (smSecretString "K" "v")
        [("Source", ".env"), ("Profile", "p"), ("Tag", "t")] := by
  have h := C2_upsert_dispatch [("/t/K", "old")] "p" "t" "K" "v"
  exact ⟨(h.2.1 "old" (by decide)).trans (by decide),
    (h.2.2.1 (by decide)).trans (by decide)⟩

/-- C3 is refuted as stated: only the Parameter Store variant classifies
keys; the Secrets Manager variant marks nothing — for a sensitive key
(TOKEN) and a plain key (COLOR) it issues calls of identical shape (same
call kind and tags, no protection field), while the Parameter Store variant
distinguishes the two by the parameter type. -/
theorem C3_counterexample :
    isSensitiveKey "TOKEN" = true
  ∧ isSensitiveKey "COLOR" = false
  ∧ SmCall.shape (smStep false "p" "t" "TOKEN" "v") =
      SmCall.shape (smStep false "p" "t" "COLOR" "v")
  ∧ (ssmStep false "p" "t" "TOKEN" "v").ptype ≠
      (ssmStep false "p" "t" "COLOR" "v").ptype := by decide

/-- C3 (amended): for every key containing password, secret, key, or token
as a case-insensitive substring, the Parameter Store variant classifies the
item as sensitive and marks it as requiring protected storage by storing it
with type SecureString, and classifies every other key as plain (type
String); the Secrets Manager variant applies no sensitivity classification:
for a fixed existence outcome its calls have identical shape for every
key. -/
theorem C3_amended_classification (found : Bool)
    (profile tag key value key2 value2 : String) :
    (((ssmStep found profile tag key value).ptype = "SecureString") ↔ SensitiveMarker key)
  ∧ (((ssmStep found profile tag key value).ptype = "String") ↔ ¬ SensitiveMarker key)
  ∧ SmCall.shape (smStep found profile tag key value) =
      SmCall.shape (smStep found profile tag key2 value2) := by
  have hptype : (ssmStep found profile tag key value).ptype = paramTypeOf key := by
    cases found <;> rfl
  have hiff : isSensitiveKey key = true ↔ SensitiveMarker key := by
    unfold isSensitiveKey SensitiveMarker
    simp [List.any_cons, List.any_nil]
  have hSS : ("SecureString" : String) ≠ "String" := by decide
  have hSS' : ("String" : String) ≠ "SecureString" := by decide
  refine ⟨?_, ?_, ?_⟩
  · rw [hptype]
    unfold paramTypeOf
    by_cases hs : isSensitiveKey key
    · simp [hs, hiff.mp hs]
    · simp only [if_neg hs]
      simp [hSS']
      exact fun hm => hs (hiff.mpr hm)
  · rw [hptype]
    unfold paramTypeOf
    by_cases hs : isSensitiveKey key
    · simp [hs, hSS, hiff.mp hs]
    · simp only [if_neg hs]
      simp
      exact fun hm => hs (hiff.mpr hm)
  · cases found <;> rfl

/-- C4 is refuted as stated: the two variants do not store the same value
for an item — for key K and value v the Parameter Store variant stores the
raw value v while the Secrets Manager variant stores the interpolated JSON
template, which differs from v. -/
theorem C4_counterexample :
    (ssmStep false "p" "t" "K" "v").value = "v"
  ∧ SmCall.payload (smStep false "p" "t" "K" "v") ≠ "v" := by decide

/-- C4 (amended): the two variants share the same dispatch structure — for
every (key, value) pair and every existence outcome they issue the same
kind of call (update when the item exists, create otherwise) carrying the
same tags (none on update, the fixed three on create) against the same
tag/key path (with a leading slash only in the Parameter Store name) — but
the Parameter Store variant stores the raw value while the Secrets Manager
variant stores the interpolated JSON-template string instead. -/
theorem C4_amended_structure (found : Bool) (profile tag key value : String) :
    SsmCall.kind (ssmStep found profile tag key value) =
      SmCall.kind (smStep found profile tag key value)
  ∧ (ssmStep found profile tag key value).tags =
      SmCall.tagsOf (smStep found profile tag key value)
  ∧ (ssmStep found profile tag key value).name = "/" ++ tag ++ "/" ++ key
  ∧ SmCall.nameOf (smStep found profile tag key value) = tag ++ "/" ++ key
  ∧ (ssmStep found profile tag key value).value = value
  ∧ SmCall.payload (smStep found profile tag key value) = smSecretString key value := by
  cases found <;>
    simp [ssmStep, smStep, SsmCall.kind, SmCall.kind, SmCall.tagsOf, SmCall.nameOf,
      SmCall.payload, ssmName, smName]

/-- C5: in every run that reaches the upsert loop (session creation
succeeded and the variable set is non-empty), each per-item failure is
caught and reported individually, the loop continues with the remaining
items in sequence — the reports are exactly one per item, in input order —
and the process exit code is zero whatever the failure oracle says. -/
theorem C5_per_item_failures (lines : List String) (store : List (String × String))
    (fails : String → Bool) (profile tag : String) (target : Target)
    (h : (parse_env_file lines).env_vars ≠ []) :
    (mainRun (some lines) target true store fails profile tag).1 = 0
  ∧ (mainRun (some lines) target true store fails profile tag).2.2 =
      (parse_env_file lines).env_vars.map
        (fun kv => expectedReport fails (itemName target tag kv.1)) := by
  have hne : (parse_env_file lines).env_vars.isEmpty = false := by
    cases hE : (parse_env_file lines).env_vars with
    | nil => exact absurd hE h
    | cons a l => rfl
  cases target <;>
    simp [mainRun, hne, push_to_ssm, push_to_secrets_manager, ssmLoop_reports,
      smLoop_reports, itemName]

/-- C5 witness: a run on the one-line file A=1 in which the single item
fails still exits with code zero and reports the failure individually. -/
theorem C5_per_item_failures_witness :
    (parse_env_file ["A=1"]).env_vars ≠ []
  ∧ ((mainRun (some ["A=1"]) Target.ssm true [] (fun _ => true) "p" "t").1 = 0
     ∧ (mainRun (some ["A=1"]) Target.ssm true [] (fun _ => true) "p" "t").2.2 =
        (parse_env_file ["A=1"]).env_vars.map
          (fun kv => expectedReport (fun _ => true) (itemName Target.ssm "t" kv.1))) :=
  ⟨by decide,
   C5_per_item_failures ["A=1"] [] (fun _ => true) "p" "t" Target.ssm (by decide)⟩

/-- C6: for every input file, each line that is neither blank nor a comment
and contains no equals sign produces exactly one warning, carrying its
1-based line number and its stripped content, in file order; such lines are
excluded from the mapping — the mapping equals the one parsed from the file
with those lines removed — and the parse runs to completion. -/
theorem C6_invalid_lines (lines : List String) :
    (parse_env_file lines).warnings = warnFrom 1 lines
  ∧ (parse_env_file lines).env_vars =
      (parse_env_file (lines.filter (fun l => !(isWarnLine l)))).env_vars := by
  refine ⟨?_, ?_⟩
  · show (parseLines 1 (ParseOut.mk [] []) lines).warnings = _
    rw [parseLines_warnings]
    rfl
  · show (parseLines 1 (ParseOut.mk [] []) lines).env_vars =
      (parseLines 1 (ParseOut.mk [] []) _).env_vars
    rw [parseLines_env, parseLines_env]
    rw [filterMap_filter_of_none lineEntry? (fun l => !(isWarnLine l))
      (fun a ha => isWarnLine_lineEntry a (by simpa using ha)) lines]

/-- C7: when the environment file does not exist, the run terminates with
exit code 1 before any network interaction: no session creation, no store
read or write, and no per-item report. -/
theorem C7_missing_file (target : Target) (connOk : Bool)
    (store : List (String × String)) (fails : String → Bool)
    (profile tag : String) :
    mainRun none target connOk store fails profile tag = (1, [], []) := rfl

/-- C8: when parsing yields an empty mapping, the run terminates with exit
code 1 without invoking either upsert dispatcher: no network event and no
report is produced. -/
theorem C8_empty_mapping (lines : List String) (target : Target) (connOk : Bool)
    (store : List (String × String)) (fails : String → Bool) (profile tag : String)
    (h : (parse_env_file lines).env_vars = []) :
    mainRun (some lines) target connOk store fails profile tag = (1, [], []) := by
  simp [mainRun, h]

/-- C8 witness: a file holding only a comment and a blank line parses to an
empty mapping and the run exits with code 1 and no network event. -/
theorem C8_empty_mapping_witness :
    (parse_env_file ["# comment", "   "]).env_vars = []
  ∧ mainRun (some ["# comment", "   "]) Target.secretsmanager true []
      (fun _ => false) "p" "t" = (1, [], []) :=
  ⟨by decide,
   C8_empty_mapping ["# comment", "   "] Target.secretsmanager true []
     (fun _ => false) "p" "t" (by decide)⟩

/-- C9: when a key appears on more than one key=value line, the parsed
mapping contains exactly one entry for it, the looked-up value is the value
of the key's last occurrence, and the mapping's key order is the
first-occurrence order of the entry keys. -/
theorem C9_duplicate_keys (lines : List String) (k : String)
    (h : 1 < ((entriesOf lines).map Prod.fst).count k) :
    ((parse_env_file lines).env_vars.map Prod.fst).count k = 1
  ∧ dictLookup k (parse_env_file lines).env_vars = lastVal k (entriesOf lines)
  ∧ (parse_env_file lines).env_vars.map Prod.fst =
      firstDedupAux [] ((entriesOf lines).map Prod.fst) := by
  have henv : (parse_env_file lines).env_vars = upsertAll [] (entriesOf lines) := by
    show (parseLines 1 (ParseOut.mk [] []) lines).env_vars = _
    rw [parseLines_env]
    rfl
  have hkeys : (parse_env_file lines).env_vars.map Prod.fst =
      firstDedupAux [] ((entriesOf lines).map Prod.fst) := by
    rw [henv]
    simpa using keys_upsertAll (entriesOf lines) []
  refine ⟨?_, ?_, hkeys⟩
  · rw [hkeys]
    have hmem : k ∈ (entriesOf lines).map Prod.fst := by
      by_contra hnot
      rw [List.count_eq_zero_of_not_mem hnot] at h
      omega
    exact count_firstDedupAux k _ [] hmem (by simp)
  · rw [henv, dictLookup_upsertAll k (entriesOf lines) []]
    cases hl : lastVal k (entriesOf lines) <;> simp [dictLookup]

/-- C9 witness: in a file where A appears twice, the mapping holds exactly
one entry for A, with the last value and the first position. -/
theorem C9_duplicate_keys_witness :
    1 < ((entriesOf ["A=1", "A=2", "B=3"]).map Prod.fst).count "A"
  ∧ ((((parse_env_file ["A=1", "A=2", "B=3"]).env_vars.map Prod.fst).count "A" = 1)
     ∧ dictLookup "A" (parse_env_file ["A=1", "A=2", "B=3"]).env_vars =
        lastVal "A" (entriesOf ["A=1", "A=2", "B=3"])
     ∧ (parse_env_file ["A=1", "A=2", "B=3"]).env_vars.map Prod.fst =
        firstDedupAux [] ((entriesOf ["A=1", "A=2", "B=3"]).map Prod.fst)) :=
  ⟨by decide, C9_duplicate_keys ["A=1", "A=2", "B=3"] "A" (by decide)⟩

/-- C10 is refuted as stated: the stored string is the unescaped template
interpolation, but not every value containing a double quote or backslash
makes it invalid JSON — the value of two backslashes contains a backslash
and yields a syntactically valid JSON text. -/
theorem C10_counterexample :
    pyContainsChar "\\\\" backslashChar = true
  ∧ SmCall.payload (smStep false "p" "t" "K" "\\\\") = smSecretString "K" "\\\\"
  ∧ isValidJson (smSecretString "K" "\\\\") = true := by decide

/-- C10 (amended): the Secrets Manager variant does not store the raw
value: it stores the string obtained by interpolating the key and value
into the JSON-object template with no escaping, so the stored string is not
guaranteed to be valid JSON — for some values containing a double quote or
backslash, such as the value of a single double quote, the stored string is
not valid JSON, though other such values still yield valid JSON. -/
theorem C10_amended_payload (found : Bool) (profile tag key value : String) :
    SmCall.payload (smStep found profile tag key value) =
      "\x7b\"" ++ key ++ "\": \"" ++ value ++ "\"\x7d"
  ∧ isValidJson (smSecretString "K" "\"") = false := by
  refine ⟨?_, by decide⟩
  cases found <;> rfl
